import Mathlib

/-!
# Verification of the messaging lifecycle pipeline

A shallow embedding of the message lifecycle subsystem of the
`Django-signals_orm-0x04` application: the notification fan-out signal,
the edit-history tracker, the user-deletion cascade, the thread
reconstructor, and the unread-message manager.  Persisted tables are
modelled as Lean lists of records; each Django operation becomes a pure
function over those lists, translated clause by clause from the source.
-/

namespace Messaging

/-- A row of `messaging_messages` (`messaging/models.py`, class `Message`).
Identifiers and timestamps are `Nat`; the body (`content`) is a `String`. -/
structure Msg where
  id : Nat
  sender : Nat
  receiver : Nat
  parent_message : Option Nat
  content : String
  is_read : Bool
  read_at : Option Nat
  edited : Bool
  edited_at : Option Nat
  sent_at : Nat
  deriving DecidableEq, Repr

/-- A row of `messaging_notifications` (`messaging/models.py`, class
`Notification`).  `message` is the nullable source-message foreign key. -/
structure Notification where
  user : Nat
  message : Option Nat
  notification_type : String
  title : String
  content : String
  is_read : Bool
  read_at : Option Nat
  deriving DecidableEq, Repr

/-- A row of `messaging_message_history` (`messaging/models.py`, class
`MessageHistory`). -/
structure HistoryEntry where
  message : Nat
  old_content : String
  edited_by : Nat
  edit_timestamp : Nat
  edit_reason : Option String
  deriving DecidableEq, Repr

/-- The sender of a message, as the fan-out signal sees it
(`instance.sender.first_name or instance.sender.email`). -/
structure UserRec where
  id : Nat
  email : String
  first_name : String
  deriving DecidableEq, Repr

/-- Python's `instance.sender.first_name or instance.sender.email`:
an empty first name is falsy, so the email is used instead. -/
def displayName (u : UserRec) : String :=
  if u.first_name = "" then u.email else u.first_name

/-- Preview truncation from `messaging/signals.py` line 132: the first 50
characters of the body, with an ellipsis appended when it was longer. -/
def messagePreview (body : String) : String :=
  body.take 50 ++ (if body.length > 50 then "..." else "")

/-- Signal handler `create_message_notification` (`messaging/signals.py`, lines 109-133):
on `post_save` of a `Message`, when `created` is true, one `Notification`
is appended per conversation participant other than the sender
(`participants.exclude(user_id=instance.sender.user_id)`).  When `created`
is false nothing happens.  `participants` is the participant id set of
`instance.conversation`; `notifs` is the notification table. -/
def create_message_notification (participants : List Nat) (sender : UserRec)
    (m : Msg) (created : Bool) (notifs : List Notification) : List Notification :=
  if created then
    notifs ++ (participants.filter (fun u => u != sender.id)).map (fun u =>
      { user := u
        message := some m.id
        notification_type := "message"
        title := "New message from " ++ displayName sender
        content := "You have received a new message: \"" ++ messagePreview m.content ++ "\""
        is_read := false
        read_at := none })
  else notifs

end Messaging

namespace Messaging

/-- C1: on message creation the fan-out appends exactly `N` notification
rows, where `N` is the number of conversation participants other than the
sender; the appended rows target exactly that recipient set, each carries
the triggering message id and kind `message`, and a message with zero
eligible recipients appends nothing (and cannot fail: the function is
total). -/
theorem fanout_creates_one_notification_per_recipient
    (participants : List Nat) (sender : UserRec) (m : Msg)
    (notifs : List Notification) (N : Nat)
    (hN : (participants.filter (fun u => u != sender.id)).length = N) :
    (create_message_notification participants sender m true notifs).length
        = notifs.length + N ∧
    ((create_message_notification participants sender m true notifs).drop
        notifs.length).map (fun n => n.user)
        = participants.filter (fun u => u != sender.id) ∧
    (∀ n ∈ (create_message_notification participants sender m true notifs).drop
        notifs.length, n.message = some m.id ∧ n.notification_type = "message") ∧
    (N = 0 → create_message_notification participants sender m true notifs = notifs) := by
  unfold create_message_notification
  simp only [if_pos]
  refine ⟨?_, ?_, ?_, ?_⟩
  · simp [hN]
  · rw [List.drop_left' (by simp)]
    simp [Function.comp_def]
  · intro n hn
    rw [List.drop_left' (by simp)] at hn
    simp only [List.mem_map] at hn
    obtain ⟨u, _, rfl⟩ := hn
    exact ⟨rfl, rfl⟩
  · intro h0
    rw [h0] at hN
    rw [List.length_eq_zero.mp hN]
    simp

/-- Witness for C1 at a concrete input: a three-member conversation
(sender 2 plus users 3 and 5) yields exactly two notifications. -/
theorem fanout_creates_one_notification_per_recipient_witness :
    (([2, 3, 5] : List Nat).filter
        (fun u => u != (⟨2, "a@x.io", "A"⟩ : UserRec).id)).length = 2 ∧
    (create_message_notification [2, 3, 5] ⟨2, "a@x.io", "A"⟩
        ⟨1, 2, 3, none, "hi", false, none, false, none, 0⟩ true []).length = 0 + 2 :=
  ⟨by decide,
   (fanout_creates_one_notification_per_recipient [2, 3, 5] ⟨2, "a@x.io", "A"⟩
      ⟨1, 2, 3, none, "hi", false, none, false, none, 0⟩ [] 2 (by decide)).1⟩

/-- Concrete sender used in the fan-out counterexample. -/
def cexSender : UserRec :=
  { id := 5, email := "a@x.io", first_name := "A" }

/-- Concrete message used in the fan-out counterexample. -/
def cexMsg : Msg :=
  { id := 1, sender := 5, receiver := 7, parent_message := none, content := "hi",
    is_read := false, read_at := none, edited := false, edited_at := none, sent_at := 0 }

/-- C2 counterexample: for a message with a single eligible recipient
(`N = 1`), invoking the fan-out twice with `created = true` leaves two
notification rows carrying the same `(recipient, message)` pair — the code
enforces no `(recipient_id, message_id)` uniqueness, so the total exceeds
`N`. -/
theorem fanout_double_invocation_duplicates :
    ((create_message_notification [7] cexSender cexMsg true
        (create_message_notification [7] cexSender cexMsg true [])).map
      (fun n => (n.user, n.message))) = [(7, some 1), (7, some 1)] ∧
    (create_message_notification [7] cexSender cexMsg true
        (create_message_notification [7] cexSender cexMsg true [])).length = 2 ∧
    (([7] : List Nat).filter (fun u => u != cexSender.id)).length = 1 := by
  decide

/-- C2 amended: the fan-out is gated only by the `created` flag.  A second
invocation with `created = false` (an ordinary update re-save) appends no
rows, but a second invocation with `created = true` for the same message
appends `N` further rows, for `2 * N` in total. -/
theorem fanout_created_flag_gating (participants : List Nat) (sender : UserRec)
    (m : Msg) (notifs : List Notification) :
    create_message_notification participants sender m false
        (create_message_notification participants sender m true notifs)
      = create_message_notification participants sender m true notifs ∧
    (create_message_notification participants sender m true
        (create_message_notification participants sender m true notifs)).length
      = notifs.length + 2 * (participants.filter (fun u => u != sender.id)).length := by
  constructor
  · rfl
  · unfold create_message_notification
    simp
    ring

/-- The persisted message and history tables, as the edit-tracking signal
sees them. -/
structure EditState where
  messages : List Msg
  history : List HistoryEntry
  deriving DecidableEq, Repr

/-- Lookup `Message.objects.get(pk=...)`, returning the first row with the given
primary key (`none` models `Message.DoesNotExist`). -/
def findMessage (msgs : List Msg) (pk : Nat) : Option Msg :=
  msgs.find? (fun m => m.id == pk)

/-- Signal handler `track_message_edits` (`messaging/signals.py`, lines 75-106): the
`pre_save` handler.  For an instance with an existing row, if the stored
body differs from the incoming body it appends a history entry holding the
old body and marks the instance `edited` with `edited_at = now`; otherwise
(or when the original cannot be found) it leaves instance and history
untouched.  Returns the instance to be persisted and the new history
table. -/
def track_message_edits (db : EditState) (inst : Msg) (now : Nat) :
    Msg × List HistoryEntry :=
  match findMessage db.messages inst.id with
  | some original =>
      if original.content != inst.content then
        ({ inst with edited := true, edited_at := some now },
         db.history ++ [{ message := original.id, old_content := original.content,
                          edited_by := inst.sender, edit_timestamp := now,
                          edit_reason := none }])
      else (inst, db.history)
  | none => (inst, db.history)

/-- Saving a `Message` instance: runs the `pre_save` signal, then
writes the (possibly signal-mutated) instance over the row with its
primary key, or inserts it when no such row exists. -/
def saveMessage (db : EditState) (inst : Msg) (now : Nat) : EditState :=
  let tracked := track_message_edits db inst now
  match findMessage db.messages inst.id with
  | some _ =>
      { messages := db.messages.map
          (fun m => if m.id == tracked.fst.id then tracked.fst else m)
        history := tracked.snd }
  | none => { messages := db.messages ++ [tracked.fst], history := tracked.snd }

/-- Update flow `updateMessage(messageId, newBody)`: fetch the stored row, set its
body to `newBody`, and save it — the update flow the edit tracker
intercepts. -/
def updateMessageBody (db : EditState) (mid : Nat) (newBody : String)
    (now : Nat) : EditState :=
  match findMessage db.messages mid with
  | some m => saveMessage db { m with content := newBody } now
  | none => db

/-- The stored form of a message after the tracker records an edit to
`newBody` at time `now`. -/
def editedMsg (m : Msg) (newBody : String) (now : Nat) : Msg :=
  { m with content := newBody, edited := true, edited_at := some now }

theorem findMessage_id (msgs : List Msg) (pk : Nat) (m : Msg)
    (h : findMessage msgs pk = some m) : m.id = pk := by
  have := List.find?_some h
  simpa using this

theorem map_replace_self (msgs : List Msg) (mid : Nat) (m : Msg)
    (hids : (msgs.map (fun x => x.id)).Nodup)
    (hm : findMessage msgs mid = some m) :
    msgs.map (fun x => if x.id == m.id then m else x) = msgs := by
  induction msgs with
  | nil => rfl
  | cons x xs ih =>
    simp only [List.map_cons, List.nodup_cons, List.mem_map, not_exists, not_and] at hids
    obtain ⟨hx, hxs⟩ := hids
    unfold findMessage at hm ih
    by_cases h : x.id = mid
    · have hpos : (x.id == mid) = true := by simpa using h
      rw [List.find?_cons, hpos] at hm
      have hxm : x = m := Option.some.inj hm
      have hcongr : ∀ y ∈ xs, (if y.id == m.id then m else y) = y := by
        intro y hy
        have hne : ¬ y.id = m.id := by
          rw [← hxm]
          exact fun hc => hx y hy hc
        simp [hne]
      rw [List.map_cons, if_pos (by simp [← hxm]), hxm,
        List.map_congr_left hcongr, List.map_id']
    · have hneg : (x.id == mid) = false := by simpa using h
      rw [List.find?_cons, hneg] at hm
      have hm2 : List.find? (fun q : Msg => q.id == mid) xs = some m := hm
      have hmid : m.id = mid := findMessage_id xs mid m hm2
      rw [List.map_cons, if_neg (by simp only [beq_iff_eq, hmid]; exact fun hc => h hc)]
      rw [ih hxs hm2]

theorem findMessage_map_replace (msgs : List Msg) (mid : Nat) (m inst : Msg)
    (hm : findMessage msgs mid = some m) (hinst : inst.id = mid) :
    findMessage (msgs.map (fun x => if x.id == inst.id then inst else x)) mid
      = some inst := by
  induction msgs with
  | nil => simp [findMessage] at hm
  | cons x xs ih =>
    unfold findMessage at hm ih ⊢
    by_cases h : x.id = mid
    · rw [List.map_cons, if_pos (by simp [hinst, h]), List.find?_cons,
        show (inst.id == mid) = true by simpa using hinst]
    · have hneg : (x.id == mid) = false := by simpa using h
      rw [List.find?_cons, hneg] at hm
      have hm2 : List.find? (fun q : Msg => q.id == mid) xs = some m := hm
      rw [List.map_cons, if_neg (by simp only [beq_iff_eq, hinst]; exact h),
        List.find?_cons, hneg]
      exact ih hm2

/-- C3: over a table with unique message ids, re-saving a persisted
message with an identical body is a complete no-op — the state (messages
and history alike, hence the `edited` flag and `edited_at`) is unchanged —
while saving a genuinely different body appends exactly one history row
holding the old body and stores the message with the new body,
`edited = true` and `edited_at = now`. -/
theorem track_message_edits_noop_and_change
    (db : EditState) (mid : Nat) (newBody : String) (now : Nat) (m : Msg)
    (hids : (db.messages.map (fun x => x.id)).Nodup)
    (hm : findMessage db.messages mid = some m) :
    (newBody = m.content → updateMessageBody db mid newBody now = db) ∧
    (newBody ≠ m.content →
      (updateMessageBody db mid newBody now).history
        = db.history ++ [{ message := m.id, old_content := m.content,
                           edited_by := m.sender, edit_timestamp := now,
                           edit_reason := none }] ∧
      findMessage (updateMessageBody db mid newBody now).messages mid
        = some { m with content := newBody, edited := true, edited_at := some now }) := by
  have hmid : m.id = mid := findMessage_id db.messages mid m hm
  have hm' : findMessage db.messages m.id = some m := by rw [hmid]; exact hm
  constructor
  · intro hEq
    subst hEq
    have htrack : track_message_edits db m now = (m, db.history) := by
      simp [track_message_edits, hm']
    simp only [updateMessageBody, hm]
    have heta : ({ m with content := m.content } : Msg) = m := rfl
    rw [heta]
    simp only [saveMessage, hm', htrack]
    rw [map_replace_self db.messages mid m hids hm]
  · intro hNe
    have hcond : (m.content != newBody) = true := by
      simp only [bne_iff_ne]
      exact fun hc => hNe hc.symm
    have htrack : track_message_edits db { m with content := newBody } now
        = ({ m with content := newBody, edited := true, edited_at := some now },
           db.history ++ [{ message := m.id, old_content := m.content,
                            edited_by := m.sender, edit_timestamp := now,
                            edit_reason := none }]) := by
      simp only [track_message_edits, hm', hcond, if_true]
    simp only [updateMessageBody, hm, saveMessage, htrack, hm']
    refine ⟨trivial, ?_⟩
    have hmid2 : (editedMsg m newBody now).id = mid := hmid
    exact findMessage_map_replace db.messages mid m (editedMsg m newBody now) hm hmid2

/-- One-row table used to witness C3 at a concrete input. -/
def editMsg1 : Msg :=
  { id := 1, sender := 5, receiver := 7, parent_message := none, content := "hi",
    is_read := false, read_at := none, edited := false, edited_at := none, sent_at := 0 }

/-- One-message store used to witness C3 at a concrete input. -/
def editDb : EditState :=
  { messages := [editMsg1], history := [] }

/-- Witness for C3: re-saving `"hi"` over `"hi"` leaves the store intact,
and saving `"hello"` appends one history row holding `"hi"`. -/
theorem track_message_edits_noop_and_change_witness :
    updateMessageBody editDb 1 "hi" 3 = editDb ∧
    (updateMessageBody editDb 1 "hello" 3).history
      = [{ message := 1, old_content := "hi", edited_by := 5, edit_timestamp := 3,
           edit_reason := none }] :=
  ⟨(track_message_edits_noop_and_change editDb 1 "hi" 3 editMsg1
      (by decide) (by decide)).1 rfl,
   by
    have h := (track_message_edits_noop_and_change editDb 1 "hello" 3 editMsg1
      (by decide) (by decide)).2 (by decide)
    simpa [editDb, editMsg1] using h.1⟩

/-- Membership of `message.replies.all()`: the rows whose `parent_message`
foreign key is `mid`. -/
def repliesOf (db : List Msg) (mid : Nat) : List Msg :=
  db.filter (fun m => m.parent_message == some mid)

/-- The ascending `order_by` comparison on `sent_at` used by the `replies` prefetch in
`get_message_thread_recursive` (`messaging/views.py`, line 158). -/
def sentAsc (a b : Msg) : Prop := a.sent_at ≤ b.sent_at

/-- The default-manager comparison from the `Message` meta ordering
(descending `sent_at`, `messaging/models.py`, line 64): most recent first. -/
def sentDesc (a b : Msg) : Prop := b.sent_at ≤ a.sent_at

instance : DecidableRel sentAsc := fun a b => Nat.decLe a.sent_at b.sent_at

instance : DecidableRel sentDesc := fun a b => Nat.decLe b.sent_at a.sent_at

instance : IsTotal Msg sentAsc := ⟨fun a b => Nat.le_total a.sent_at b.sent_at⟩

instance : IsTotal Msg sentDesc := ⟨fun a b => Nat.le_total b.sent_at a.sent_at⟩

instance : IsTrans Msg sentAsc := ⟨fun _ _ _ h1 h2 => Nat.le_trans h1 h2⟩

instance : IsTrans Msg sentDesc := ⟨fun _ _ _ h1 h2 => Nat.le_trans h2 h1⟩

/-- A query ordered by `sent_at` ascending. -/
def orderAsc (l : List Msg) : List Msg := List.insertionSort sentAsc l

/-- A query served with the default manager ordering: `sent_at` descending. -/
def orderDesc (l : List Msg) : List Msg := List.insertionSort sentDesc l

/-- The nested dictionary built by `build_thread_structure`:
a message together with its reply subtrees, the direct-reply count and
the truncation flag. -/
inductive ThreadNode where
  | mk (message : Msg) (replies : List ThreadNode) (reply_count : Nat)
      (truncated : Bool)

def ThreadNode.message : ThreadNode → Msg
  | .mk m _ _ _ => m

def ThreadNode.replies : ThreadNode → List ThreadNode
  | .mk _ r _ _ => r

def ThreadNode.reply_count : ThreadNode → Nat
  | .mk _ _ c _ => c

def ThreadNode.truncated : ThreadNode → Bool
  | .mk _ _ _ t => t

/-- Function `build_thread_structure` (`messaging/views.py`, lines 169-193), with
the remaining budget `fuel = max_depth - current_depth` made explicit.
At `fuel = 0` (`current_depth >= max_depth`) it returns a truncated node
with an empty `replies` list but the true `message.replies.count()`.
Otherwise it recurses into `message.replies.all()`; at these inner levels
the related manager serves replies with the model's default ordering
`-sent_at` (descending), since only the root's `replies` were prefetched
in ascending order. -/
def build_thread_structure (db : List Msg) : Nat → Msg → ThreadNode
  | 0, m => ThreadNode.mk m [] (repliesOf db m.id).length true
  | fuel + 1, m =>
      ThreadNode.mk m
        ((orderDesc (repliesOf db m.id)).map (build_thread_structure db fuel))
        (repliesOf db m.id).length false

/-- Function `get_message_thread_recursive` (`messaging/views.py`, lines 144-166):
fetches the root by id (`none` models `Message.DoesNotExist`) with its
direct replies prefetched in `sent_at`-ascending order, then builds the
thread structure from depth 0. -/
def get_message_thread_recursive (db : List Msg) (mid : Nat)
    (max_depth : Nat) : Option ThreadNode :=
  match db.find? (fun m => m.id == mid) with
  | none => none
  | some root =>
      match max_depth with
      | 0 => some (ThreadNode.mk root [] (repliesOf db root.id).length true)
      | k + 1 =>
          some (ThreadNode.mk root
            ((orderAsc (repliesOf db root.id)).map (build_thread_structure db k))
            (repliesOf db root.id).length false)

/-- The nodes sitting exactly `j` levels below the root of a thread tree. -/
def nodesAtDepth : Nat → ThreadNode → List ThreadNode
  | 0, t => [t]
  | j + 1, t => t.replies.flatMap (nodesAtDepth j)

theorem build_message (db : List Msg) (fuel : Nat) (m : Msg) :
    (build_thread_structure db fuel m).message = m := by
  cases fuel <;> rfl

theorem build_reply_count (db : List Msg) (fuel : Nat) (m : Msg) :
    (build_thread_structure db fuel m).reply_count
      = (repliesOf db m.id).length := by
  cases fuel <;> rfl

theorem build_replies_map (db : List Msg) (f : Nat) (m : Msg) :
    (build_thread_structure db (f + 1) m).replies.map ThreadNode.message
      = orderDesc (repliesOf db m.id) := by
  simp only [build_thread_structure, ThreadNode.replies, List.map_map,
    Function.comp_def, build_message, List.map_id']

theorem mem_nodesAtDepth_build (db : List Msg) :
    ∀ (j fuel : Nat) (m : Msg) (n : ThreadNode),
      n ∈ nodesAtDepth j (build_thread_structure db fuel m) →
      j ≤ fuel ∧ n = build_thread_structure db (fuel - j) n.message := by
  intro j
  induction j with
  | zero =>
    intro fuel m n hn
    simp only [nodesAtDepth, List.mem_singleton] at hn
    subst hn
    refine ⟨Nat.zero_le _, ?_⟩
    rw [Nat.sub_zero, build_message]
  | succ j ih =>
    intro fuel m n hn
    cases fuel with
    | zero =>
      simp [nodesAtDepth, build_thread_structure, ThreadNode.replies] at hn
    | succ f =>
      simp only [nodesAtDepth, build_thread_structure, ThreadNode.replies,
        List.mem_flatMap, List.mem_map] at hn
      obtain ⟨c, ⟨r, hr, rfl⟩, hnc⟩ := hn
      obtain ⟨hle, heq⟩ := ih f r n hnc
      exact ⟨Nat.succ_le_succ hle, by rw [Nat.succ_sub_succ]; exact heq⟩

theorem nodesAtDepth_build_empty (db : List Msg) (j fuel : Nat) (m : Msg)
    (h : fuel < j) : nodesAtDepth j (build_thread_structure db fuel m) = [] := by
  rw [List.eq_nil_iff_forall_not_mem]
  intro n hn
  have := (mem_nodesAtDepth_build db j fuel m n hn).1
  omega

/-- C6 amended: the reconstructor keeps no visited-id set — a node whose
id reappears on its own ancestor path is still expanded (see the
counterexample) — yet traversal terminates on every store, cyclic ones
included, because each recursion level consumes the `maxDepth` budget: the
returned tree has no node below depth `k`, and every branch alive at depth
`k` is cut there as a truncated node with no children. -/
theorem build_thread_depth_bounded (db : List Msg) (mid k : Nat)
    (t : ThreadNode)
    (ht : get_message_thread_recursive db mid k = some t) :
    (∀ j, k < j → nodesAtDepth j t = []) ∧
    (∀ n ∈ nodesAtDepth k t, n.truncated = true ∧ n.replies = []) := by
  unfold get_message_thread_recursive at ht
  rcases hroot : db.find? (fun m => m.id == mid) with _ | root
  · rw [hroot] at ht
    exact absurd ht (by simp)
  · rw [hroot] at ht
    cases k with
    | zero =>
      obtain rfl : ThreadNode.mk root [] (repliesOf db root.id).length true = t :=
        Option.some.inj ht
      constructor
      · intro j hj
        cases j with
        | zero => omega
        | succ j' => simp [nodesAtDepth, ThreadNode.replies]
      · intro n hn
        simp only [nodesAtDepth, List.mem_singleton] at hn
        subst hn
        exact ⟨rfl, rfl⟩
    | succ k' =>
      obtain rfl : ThreadNode.mk root
          ((orderAsc (repliesOf db root.id)).map (build_thread_structure db k'))
          (repliesOf db root.id).length false = t := Option.some.inj ht
      constructor
      · intro j hj
        cases j with
        | zero => omega
        | succ j' =>
          simp only [nodesAtDepth, ThreadNode.replies]
          rw [List.eq_nil_iff_forall_not_mem]
          intro n hn
          simp only [List.mem_flatMap, List.mem_map] at hn
          obtain ⟨c, ⟨r, hr, rfl⟩, hnc⟩ := hn
          have := (mem_nodesAtDepth_build db j' k' r n hnc).1
          omega
      · intro n hn
        simp only [nodesAtDepth, ThreadNode.replies, List.mem_flatMap,
          List.mem_map] at hn
        obtain ⟨c, ⟨r, hr, rfl⟩, hnc⟩ := hn
        obtain ⟨hle, heq⟩ := mem_nodesAtDepth_build db k' k' r n hnc
        rw [Nat.sub_self] at heq
        rw [heq]
        exact ⟨rfl, rfl⟩

/-- First row of the cyclic fixture: message 1 is a reply of message 2. -/
def cycMsg1 : Msg :=
  { id := 1, sender := 1, receiver := 2, parent_message := some 2, content := "a",
    is_read := false, read_at := none, edited := false, edited_at := none,
    sent_at := 0 }

/-- Second row of the cyclic fixture: message 2 is a reply of message 1,
closing a `parent_message` reference cycle (corrupt data). -/
def cycMsg2 : Msg :=
  { id := 2, sender := 2, receiver := 1, parent_message := some 1, content := "b",
    is_read := false, read_at := none, edited := false, edited_at := none,
    sent_at := 1 }

/-- A store whose `parent_message` links form a two-cycle. -/
def cyclicDb : List Msg := [cycMsg1, cycMsg2]

/-- C6 counterexample: on the cyclic store with `maxDepth = 3`, the node
at depth 2 carries id 1 — the root's own id, so an id repeated on its
ancestor path — yet it is returned expanded (`truncated = false`, one
child) instead of being cut: no visited-id set is maintained. -/
theorem thread_cycle_node_expanded :
    (get_message_thread_recursive cyclicDb 1 3).map (fun t =>
        t.replies.map (fun c => c.replies.map (fun g =>
          (g.message.id, g.truncated, g.replies.length))))
      = some [[(1, false, 1)]] := by
  decide

/-- The tree the reconstructor returns on the cyclic store. -/
def cyclicTree : ThreadNode :=
  (get_message_thread_recursive cyclicDb 1 3).getD (ThreadNode.mk cycMsg1 [] 0 true)

/-- Witness for C6 at a concrete input: even on the cyclic store the tree
is depth-bounded — no node exists below the depth budget. -/
theorem build_thread_depth_bounded_witness :
    nodesAtDepth 4 cyclicTree = [] :=
  (build_thread_depth_bounded cyclicDb 1 3 cyclicTree rfl).1 4 (by omega)

theorem orderAsc_perm (l : List Msg) : (orderAsc l).Perm l :=
  List.perm_insertionSort sentAsc l

theorem orderDesc_perm (l : List Msg) : (orderDesc l).Perm l :=
  List.perm_insertionSort sentDesc l

theorem orderAsc_sorted (l : List Msg) : List.Sorted sentAsc (orderAsc l) :=
  List.sorted_insertionSort sentAsc l

theorem orderDesc_sorted (l : List Msg) : List.Sorted sentDesc (orderDesc l) :=
  List.sorted_insertionSort sentDesc l

/-- C5 amended: building a thread with budget `k`, every node at depth `k`
is truncated with an empty children list but a `reply_count` equal to its
true number of direct replies; every node above the bound is expanded
(`truncated = false`, true `reply_count`) with its children list a
permutation of its full direct-reply set — but only the root's children
are sorted by creation time ascending; children of every deeper expanded
node arrive in the default `-sent_at` order, i.e. descending. -/
theorem build_thread_truncation_and_order (db : List Msg) (mid k : Nat)
    (t : ThreadNode)
    (ht : get_message_thread_recursive db mid k = some t) :
    (∀ n ∈ nodesAtDepth k t, n.truncated = true ∧ n.replies = [] ∧
        n.reply_count = (repliesOf db n.message.id).length) ∧
    (0 < k → t.truncated = false ∧
        t.reply_count = (repliesOf db t.message.id).length ∧
        t.replies.map ThreadNode.message = orderAsc (repliesOf db t.message.id) ∧
        (t.replies.map ThreadNode.message).Perm (repliesOf db t.message.id) ∧
        List.Sorted sentAsc (t.replies.map ThreadNode.message)) ∧
    (∀ j, 0 < j → j < k → ∀ n ∈ nodesAtDepth j t, n.truncated = false ∧
        n.reply_count = (repliesOf db n.message.id).length ∧
        n.replies.map ThreadNode.message = orderDesc (repliesOf db n.message.id) ∧
        (n.replies.map ThreadNode.message).Perm (repliesOf db n.message.id) ∧
        List.Sorted sentDesc (n.replies.map ThreadNode.message)) := by
  unfold get_message_thread_recursive at ht
  rcases hroot : db.find? (fun m => m.id == mid) with _ | root
  · rw [hroot] at ht
    exact absurd ht (by simp)
  rw [hroot] at ht
  cases k with
  | zero =>
    obtain rfl : ThreadNode.mk root [] (repliesOf db root.id).length true = t :=
      Option.some.inj ht
    refine ⟨?_, by omega, by omega⟩
    intro n hn
    simp only [nodesAtDepth, List.mem_singleton] at hn
    subst hn
    exact ⟨rfl, rfl, rfl⟩
  | succ k' =>
    obtain rfl : ThreadNode.mk root
        ((orderAsc (repliesOf db root.id)).map (build_thread_structure db k'))
        (repliesOf db root.id).length false = t := Option.some.inj ht
    refine ⟨?_, ?_, ?_⟩
    · intro n hn
      simp only [nodesAtDepth, ThreadNode.replies, List.mem_flatMap,
        List.mem_map] at hn
      obtain ⟨c, ⟨r, hr, rfl⟩, hnc⟩ := hn
      obtain ⟨hle, heq⟩ := mem_nodesAtDepth_build db k' k' r n hnc
      rw [Nat.sub_self] at heq
      rw [heq]
      exact ⟨rfl, rfl, by rw [build_message]; rfl⟩
    · intro _
      have hmap : (ThreadNode.mk root
            ((orderAsc (repliesOf db root.id)).map (build_thread_structure db k'))
            (repliesOf db root.id).length false).replies.map ThreadNode.message
          = orderAsc (repliesOf db root.id) := by
        simp only [ThreadNode.replies, List.map_map, Function.comp_def,
          build_message, List.map_id']
      refine ⟨rfl, rfl, hmap, ?_, ?_⟩
      · rw [hmap]
        exact orderAsc_perm _
      · rw [hmap]
        exact orderAsc_sorted _
    · intro j hj0 hjk n hn
      obtain ⟨j', rfl⟩ : ∃ j', j = j' + 1 := ⟨j - 1, by omega⟩
      simp only [nodesAtDepth, ThreadNode.replies, List.mem_flatMap,
        List.mem_map] at hn
      obtain ⟨c, ⟨r, hr, rfl⟩, hnc⟩ := hn
      obtain ⟨hle, heq⟩ := mem_nodesAtDepth_build db j' k' r n hnc
      obtain ⟨f, hf⟩ : ∃ f, k' - j' = f + 1 := ⟨k' - j' - 1, by omega⟩
      rw [hf] at heq
      rw [heq]
      refine ⟨rfl, ?_, ?_, ?_, ?_⟩
      · rw [build_reply_count, build_message]
      · rw [build_message, build_replies_map]
      · rw [build_message, build_replies_map]
        exact orderDesc_perm _
      · rw [build_replies_map]
        exact orderDesc_sorted _

/-- A message fixture for the thread-ordering counterexample. -/
def threadMsg (i : Nat) (p : Option Nat) (ts : Nat) : Msg :=
  { id := i, sender := 1, receiver := 2, parent_message := p, content := "x",
    is_read := false, read_at := none, edited := false, edited_at := none,
    sent_at := ts }

/-- A three-level thread: root 1, its reply 2, and the replies of 2 —
message 3 (sent at 10) and message 4 (sent at 20). -/
def threadDb : List Msg :=
  [threadMsg 1 none 0, threadMsg 2 (some 1) 1, threadMsg 3 (some 2) 10,
   threadMsg 4 (some 2) 20]

/-- C5 counterexample: building from root 1 with `maxDepth = 5`, the
depth-1 node (message 2) is expanded, yet its children arrive as
ids `[4, 3]` — sent at 20 then 10, i.e. NOT sorted by creation time
ascending: only the root's prefetched children are ascending, deeper
levels use the default `-sent_at` ordering. -/
theorem thread_children_not_ascending_below_root :
    (get_message_thread_recursive threadDb 1 5).map (fun t =>
        t.replies.map (fun c => (c.truncated,
          decide (List.Sorted sentAsc (c.replies.map ThreadNode.message)),
          c.replies.map (fun g => g.message.id))))
      = some [(false, false, [4, 3])] := by
  decide

/-- The tree built over `threadDb` with budget 2, for the C5 witness. -/
def threadTree : ThreadNode :=
  (get_message_thread_recursive threadDb 1 2).getD
    (ThreadNode.mk (threadMsg 1 none 0) [] 0 true)

/-- Witness for C5 at a concrete input: with budget 2 the root of the
concrete thread is expanded and its children are the ascending-ordered
direct replies. -/
theorem build_thread_truncation_and_order_witness :
    threadTree.truncated = false ∧
    threadTree.replies.map ThreadNode.message
      = orderAsc (repliesOf threadDb threadTree.message.id) := by
  have h := (build_thread_truncation_and_order threadDb 1 2 threadTree rfl).2.1
    (by omega)
  exact ⟨h.1, h.2.2.1⟩

/-- The queryset filter shared by every `UnreadMessagesManager` method
(`messaging/managers.py`): `receiver=user, is_read=False`. -/
def unread_filter (uid : Nat) (m : Msg) : Bool :=
  m.receiver == uid && !m.is_read

/-- Manager method `UnreadMessagesManager.count_for_user` (`messaging/managers.py`,
lines 21-28). -/
def count_for_user (msgs : List Msg) (uid : Nat) : Nat :=
  (msgs.filter (unread_filter uid)).length

/-- Manager method `UnreadMessagesManager.bulk_mark_read` (`messaging/managers.py`,
lines 63-79): filter `receiver=user, is_read=False`; then, only when
`message_ids` is truthy (Python: neither `None` nor an empty list),
narrow to `id__in=message_ids`; finally `update(is_read=True,
read_at=Now())`, returning the number of rows updated. -/
def bulk_mark_read (msgs : List Msg) (uid : Nat)
    (message_ids : Option (List Nat)) (now : Nat) : List Msg × Nat :=
  let selected : Msg → Bool := fun m =>
    unread_filter uid m &&
      (match message_ids with
       | none => true
       | some ids => ids.isEmpty || ids.contains m.id)
  (msgs.map (fun m =>
      if selected m then { m with is_read := true, read_at := some now } else m),
   (msgs.filter selected).length)

/-- A self-sent unread message: the user is both sender and receiver. -/
def selfMsg : Msg :=
  { id := 9, sender := 5, receiver := 5, parent_message := none,
    content := "note", is_read := false, read_at := none, edited := false,
    edited_at := none, sent_at := 3 }

/-- C7 counterexample: `bulk_mark_read` filters only on
`receiver=user, is_read=False` and never excludes `sender=user`, so the
self-sent unread message of user 5 IS marked read (count 1) — the claim says a
message whose sender is the user is never marked. -/
theorem bulk_mark_read_marks_self_sent :
    (bulk_mark_read [selfMsg] 5 none 7).snd = 1 ∧
    (bulk_mark_read [selfMsg] 5 none 7).fst.map
        (fun m => (m.sender, m.is_read, m.read_at)) = [(5, true, some 7)] ∧
    selfMsg.sender = 5 := by
  decide

/-- C7 amended: `bulk_mark_read` with no id list marks, in one pass,
exactly the currently-unread messages received by the user — each gets
`is_read = true` and `read_at = now`, every other row (in particular any
message the user sent to somebody else, whose receiver is not the user)
is left untouched — and returns the number of rows it updated, the user's
unread count.  A message the user sent to themself is received by them
and is therefore marked. -/
theorem bulk_mark_read_marks_received_unread (msgs : List Msg)
    (uid now : Nat) :
    (bulk_mark_read msgs uid none now).fst
      = msgs.map (fun m =>
          if m.receiver = uid ∧ m.is_read = false
          then { m with is_read := true, read_at := some now } else m) ∧
    (bulk_mark_read msgs uid none now).snd = count_for_user msgs uid ∧
    (∀ m : Msg, m.receiver ≠ uid →
      (if m.receiver = uid ∧ m.is_read = false
       then { m with is_read := true, read_at := some now } else m) = m) := by
  refine ⟨?_, ?_, ?_⟩
  · simp only [bulk_mark_read]
    apply List.map_congr_left
    intro m _
    by_cases h1 : m.receiver = uid
    · by_cases h2 : m.is_read
      · simp [unread_filter, h1, h2]
      · simp [unread_filter, h1, h2]
    · simp [unread_filter, h1]
  · simp only [bulk_mark_read, count_for_user]
    congr 1
    apply List.filter_congr
    intro m _
    simp [Bool.and_true]
  · intro m hm
    rw [if_neg]
    exact fun hc => hm hc.1

/-- C8: `bulk_mark_read` is idempotent — after one bulk mark-read for a
user, a second one finds no row with `receiver=user, is_read=False` left,
so it updates nothing (the stored messages are unchanged) and returns
count 0. -/
theorem bulk_mark_read_idempotent (msgs : List Msg) (uid now now2 : Nat) :
    bulk_mark_read (bulk_mark_read msgs uid none now).fst uid none now2
      = ((bulk_mark_read msgs uid none now).fst, 0) := by
  simp only [bulk_mark_read, Prod.mk.injEq]
  constructor
  · rw [List.map_map]
    apply List.map_congr_left
    intro m _
    by_cases h : unread_filter uid m = true
    · simp only [Function.comp_def, Bool.and_true, h, if_pos]
      have : unread_filter uid { m with is_read := true, read_at := some now }
          = false := by
        simp [unread_filter]
      simp [this]
    · simp only [Function.comp_def, Bool.and_true, h]
      simp only [Bool.not_eq_true] at h
      simp [h]
  · rw [List.length_eq_zero, List.filter_eq_nil_iff]
    intro a ha
    simp only [List.mem_map] at ha
    obtain ⟨m, _, rfl⟩ := ha
    by_cases h : unread_filter uid m = true
    · simp only [Bool.and_true, h, if_pos]
      simp [unread_filter]
    · simp only [Bool.and_true, h]
      simp only [Bool.not_eq_true] at h
      simp [h, unread_filter]
      intro h2
      simp [unread_filter, h2] at h
      simp [h]

/-- C10: passing an explicit empty id list is falsy in Python
(`if message_ids:`), so `bulk_mark_read(user, [])` behaves exactly like
`bulk_mark_read(user)` with no list: every currently-unread received
message is marked read and the returned count is the user's full unread
count — the empty list does NOT mean "mark none". -/
theorem bulk_mark_read_empty_list_marks_all (msgs : List Msg)
    (uid now : Nat) :
    bulk_mark_read msgs uid (some []) now = bulk_mark_read msgs uid none now ∧
    (bulk_mark_read msgs uid (some []) now).snd = count_for_user msgs uid := by
  constructor
  · rfl
  · simp only [bulk_mark_read, count_for_user]
    congr 1
    apply List.filter_congr
    intro m _
    simp

/-- The `cleanup_summary` dictionary returned by the `delete_user` view
(`messaging/views.py`, lines 77-82). -/
structure CleanupSummary where
  sent_messages_deleted : Nat
  received_messages_deleted : Nat
  notifications_deleted : Nat
  message_edit_history_deleted : Nat
  deriving DecidableEq, Repr

/-- The tables touched by the user-deletion cascade. -/
structure Store where
  users : List Nat
  messages : List Msg
  notifications : List Notification
  histories : List HistoryEntry
  deriving DecidableEq, Repr

/-- The count `Message.objects.filter(sender=user).count()`. -/
def countSent (st : Store) (uid : Nat) : Nat :=
  (st.messages.filter (fun m => m.sender == uid)).length

/-- The count `Message.objects.filter(receiver=user).count()`. -/
def countReceived (st : Store) (uid : Nat) : Nat :=
  (st.messages.filter (fun m => m.receiver == uid)).length

/-- The count `Notification.objects.filter(user=user).count()`. -/
def countNotifications (st : Store) (uid : Nat) : Nat :=
  (st.notifications.filter (fun n => n.user == uid)).length

/-- The count `MessageHistory.objects.filter(edited_by=user).count()`. -/
def countHistories (st : Store) (uid : Nat) : Nat :=
  (st.histories.filter (fun h => h.edited_by == uid)).length

/-- Effect of `user.delete()` under the `on_delete=CASCADE` foreign keys
(`messaging/models.py`): messages sent or received by the user are
deleted; a history row dies with its editor or with its message; a
notification dies with its recipient or with its (non-null) source
message. -/
def user_delete_cascade (st : Store) (uid : Nat) : Store :=
  let messages := st.messages.filter (fun m => m.sender != uid && m.receiver != uid)
  let survivingIds := messages.map (fun m => m.id)
  { users := st.users.filter (fun u => u != uid)
    messages := messages
    notifications := st.notifications.filter (fun n =>
      n.user != uid &&
        (match n.message with
         | some msgid => survivingIds.contains msgid
         | none => true))
    histories := st.histories.filter (fun h =>
      h.edited_by != uid && survivingIds.contains h.message) }

/-- Signal handler `cleanup_user_data` (`messaging/signals.py`, lines 11-72): the
`post_delete` handler re-deletes the user's sent/received messages,
notifications and edit histories (no-ops after the cascade above), then
purges `Notification.objects.filter(message__isnull=True)` — every
notification whose source-message field is null. -/
def cleanup_user_data (st : Store) (uid : Nat) : Store :=
  let messages := (st.messages.filter (fun m => m.sender != uid)).filter
    (fun m => m.receiver != uid)
  let notifications := st.notifications.filter (fun n => n.user != uid)
  let histories := st.histories.filter (fun h => h.edited_by != uid)
  { users := st.users
    messages := messages
    notifications := notifications.filter (fun n => n.message.isSome)
    histories := histories }

/-- The `delete_user` view (`messaging/views.py`, lines 16-92): when the
user exists, counts are taken first — sent messages, received messages,
notifications, edit histories — then `user.delete()` runs (foreign-key
cascade followed by the `post_delete` signal), and the pre-computed
counts are returned as the cleanup summary.  A missing user yields
`none` (HTTP 404) with no side effects. -/
def delete_user (st : Store) (uid : Nat) : Option (Store × CleanupSummary) :=
  if st.users.contains uid then
    some (cleanup_user_data (user_delete_cascade st uid) uid,
      { sent_messages_deleted := countSent st uid
        received_messages_deleted := countReceived st uid
        notifications_deleted := countNotifications st uid
        message_edit_history_deleted := countHistories st uid })
  else none

/-- C4: for an existing user, `delete_user` succeeds and its cleanup
summary holds exactly the user's sent/received/notification/history
counts as they were at the start of the operation — while in the
post-deletion store every one of those counts is 0, so the summary can
only be the pre-state's. -/
theorem delete_user_summary_precounts (st : Store) (uid : Nat)
    (hu : st.users.contains uid = true) :
    delete_user st uid
      = some (cleanup_user_data (user_delete_cascade st uid) uid,
          { sent_messages_deleted := countSent st uid
            received_messages_deleted := countReceived st uid
            notifications_deleted := countNotifications st uid
            message_edit_history_deleted := countHistories st uid }) ∧
    countSent (cleanup_user_data (user_delete_cascade st uid) uid) uid = 0 ∧
    countReceived (cleanup_user_data (user_delete_cascade st uid) uid) uid = 0 ∧
    countNotifications (cleanup_user_data (user_delete_cascade st uid) uid) uid = 0 ∧
    countHistories (cleanup_user_data (user_delete_cascade st uid) uid) uid = 0 := by
  refine ⟨by rw [delete_user, if_pos hu], ?_, ?_, ?_, ?_⟩
  · rw [countSent, List.length_eq_zero, List.filter_eq_nil_iff]
    intro m hm
    simp only [cleanup_user_data, List.mem_filter] at hm
    simp only [bne_iff_ne, ne_eq] at hm
    simp [hm.1.2]
  · rw [countReceived, List.length_eq_zero, List.filter_eq_nil_iff]
    intro m hm
    simp only [cleanup_user_data, List.mem_filter] at hm
    simp only [bne_iff_ne, ne_eq] at hm
    simp [hm.2]
  · rw [countNotifications, List.length_eq_zero, List.filter_eq_nil_iff]
    intro n hn
    simp only [cleanup_user_data, List.mem_filter] at hn
    simp only [List.mem_filter, bne_iff_ne, ne_eq] at hn
    simp [hn.1.2]
  · rw [countHistories, List.length_eq_zero, List.filter_eq_nil_iff]
    intro h hh
    simp only [cleanup_user_data, List.mem_filter] at hh
    simp only [bne_iff_ne, ne_eq] at hh
    simp [hh.2]

/-- Notification row of the C4 witness store. -/
def storeWNotif : Notification :=
  { user := 2, message := some 10, notification_type := "message",
    title := "t", content := "c", is_read := false, read_at := none }

/-- History row of the C4 witness store. -/
def storeWHist : HistoryEntry :=
  { message := 10, old_content := "x", edited_by := 1, edit_timestamp := 0,
    edit_reason := none }

/-- The C4 witness store itself. -/
def storeW : Store :=
  { users := [1, 2]
    messages := [threadMsg 10 none 0]
    notifications := [storeWNotif]
    histories := [storeWHist] }

/-- Witness for C4 at a concrete input: deleting user 1 (one sent
message, no received, one notification owned by user 2, one history
entry) reports the pre-state counts 1, 0, 0, 1. -/
theorem delete_user_summary_precounts_witness :
    storeW.users.contains 1 = true ∧
    (delete_user storeW 1).map (fun r => r.snd)
      = some { sent_messages_deleted := 1, received_messages_deleted := 0,
               notifications_deleted := 0, message_edit_history_deleted := 1 } :=
  ⟨by decide, by
    rw [(delete_user_summary_precounts storeW 1 (by decide)).1]
    decide⟩

/-- C9 fixture: message from user 1 to user 2. -/
def c9MsgAB : Msg :=
  { id := 10, sender := 1, receiver := 2, parent_message := none,
    content := "hi", is_read := false, read_at := none, edited := false,
    edited_at := none, sent_at := 0 }

/-- C9 fixture: message from user 2 to user 3, untouched by deleting
user 1. -/
def c9MsgBC : Msg :=
  { id := 20, sender := 2, receiver := 3, parent_message := none,
    content := "yo", is_read := false, read_at := none, edited := false,
    edited_at := none, sent_at := 1 }

/-- C9 fixture: fan-out notification whose source message dies with
user 1 (cascade removes it correctly). -/
def c9NotifCascade : Notification :=
  { user := 2, message := some 10, notification_type := "message",
    title := "New message", content := "hi", is_read := false, read_at := none }

/-- C9 fixture: notification of an unaffected user with a surviving
source message — must and does survive. -/
def c9NotifKept : Notification :=
  { user := 3, message := some 20, notification_type := "message",
    title := "New message", content := "yo", is_read := false, read_at := none }

/-- C9 fixture: a system notification that never referenced any message
(`message` is null), owned by the unaffected user 2. -/
def c9NotifSystem : Notification :=
  { user := 2, message := none, notification_type := "system",
    title := "maintenance", content := "window", is_read := false,
    read_at := none }

/-- C9 fixture store. -/
def storeC9 : Store :=
  { users := [1, 2, 3]
    messages := [c9MsgAB, c9MsgBC]
    notifications := [c9NotifCascade, c9NotifKept, c9NotifSystem]
    histories := [] }

/-- C9 failing input, evaluated: deleting user 1 leaves only the
notification with a surviving source message.  The system notification of
the unaffected user 2 — which never referenced a message — is purged by
the `message__isnull=True` step, although the claim (and the handler's own
comment) says the purge targets only notifications whose source message
was deleted, and that never-sourced notifications survive.  Under the
CASCADE foreign key a notification of a deleted message is already gone
(`c9NotifCascade`), so the null-filter can only hit never-sourced rows. -/
theorem orphan_purge_deletes_system_notification :
    (delete_user storeC9 1).map (fun r => r.fst.notifications)
      = some [c9NotifKept] ∧
    c9NotifSystem.message = none ∧ c9NotifSystem.user = 2 := by
  decide

end Messaging
